import Mathlib

/-!
Verification of the PhysioSense ingestion pipeline (src/index.tsx).

The development shallowly embeds the data-handling core of the React
application: the Bluetooth frame reassembler and sample decoder
(`handleCharacteristicValueChanged`, lines 131-178), the bounded history
buffer, the simulation source's designated-channel draw, and the
session-level button handlers (`toggleSimulation`, `handleClear`, the
disconnect button, `generateAIReport` with its disabled-button gate).
Strings are modelled as Lean `String`s; JavaScript string operations
(`split`, `trim`, `parseInt`, `includes`, `.length`) are embedded as
executable functions over `List Char` for the ASCII wire format the
device produces.
-/

namespace PhysioSense

/-- Whitespace as recognised by JavaScript `trim` and `parseInt`,
restricted to the ASCII range that the serial wire format can carry. -/
def isWsChar (c : Char) : Bool :=
  c = ' ' || c = '\t' || c = '\n' || c = '\r' || c = '\x0b' || c = '\x0c'

/-- JavaScript `String.prototype.trim` on an ASCII character list:
remove whitespace from both ends. -/
def trimWs (cs : List Char) : List Char :=
  ((cs.dropWhile isWsChar).reverse.dropWhile isWsChar).reverse

/-- JavaScript `str.split(',')`: cut at every comma; the empty string
splits to a single empty field, matching `"".split(',') = [""]`. -/
def splitComma : List Char → List (List Char)
  | [] => [[]]
  | c :: rest =>
    if c = ',' then [] :: splitComma rest
    else
      match splitComma rest with
      | [] => [[c]]
      | s :: ss => (c :: s) :: ss

/-- Split a character list at every `'\n'`; the newline characters are
consumed.  `"".split` gives one empty segment, as in JavaScript. -/
def splitNL : List Char → List (List Char)
  | [] => [[]]
  | c :: rest =>
    if c = '\n' then [] :: splitNL rest
    else
      match splitNL rest with
      | [] => [[c]]
      | s :: ss => (c :: s) :: ss

/-- Remove one trailing `'\r'`, if present.  Applied to the segments
that were terminated by a `'\n'`, this makes `splitNL` agree with the
source's `split(/\r?\n/)`. -/
def stripCR (cs : List Char) : List Char :=
  if cs.getLast? = some '\r' then cs.dropLast else cs

/-- JavaScript `str.split(/\r?\n/)` as used at src/index.tsx:141: split
at every `'\n'`, and strip the optional `'\r'` that preceded each
consumed `'\n'`.  The final segment (not newline-terminated) keeps any
trailing `'\r'`, exactly as the regex leaves it. -/
def splitLines (cs : List Char) : List (List Char) :=
  let parts := splitNL cs
  (parts.dropLast.map stripCR) ++ [parts.getLastD []]

/-- Numeric value of a decimal digit, `none` for other characters. -/
def decDigitVal (c : Char) : Option Nat :=
  if '0' ≤ c ∧ c ≤ '9' then some (c.toNat - '0'.toNat) else none

/-- Numeric value of a hexadecimal digit, `none` for other characters. -/
def hexDigitVal (c : Char) : Option Nat :=
  if '0' ≤ c ∧ c ≤ '9' then some (c.toNat - '0'.toNat)
  else if 'a' ≤ c ∧ c ≤ 'f' then some (c.toNat - 'a'.toNat + 10)
  else if 'A' ≤ c ∧ c ≤ 'F' then some (c.toNat - 'A'.toNat + 10)
  else none

/-- Fold the longest prefix of digits recognised by `dv` left-to-right
into an accumulator, stopping at the first non-digit. -/
def digitsAcc (dv : Char → Option Nat) (base : Nat) (acc : Nat) :
    List Char → Nat
  | [] => acc
  | c :: rest =>
    match dv c with
    | none => acc
    | some d => digitsAcc dv base (acc * base + d) rest

/-- Value of the longest prefix of digits recognised by `dv`; `none`
when that prefix is empty (ECMAScript `parseInt` yields `NaN` when no
digit is consumed). -/
def parseDigits (dv : Char → Option Nat) (base : Nat) : List Char → Option Nat
  | [] => none
  | c :: rest =>
    match dv c with
    | none => none
    | some d => some (digitsAcc dv base d rest)

/-- ECMAScript `parseInt(s)` (radix argument omitted): skip leading
whitespace, take an optional sign, honour a `0x`/`0X` prefix as
hexadecimal, then consume the longest digit prefix, ignoring trailing
garbage; `none` models the `NaN` result when no digit is consumed. -/
def jsParseInt (cs : List Char) : Option Int :=
  let cs := cs.dropWhile isWsChar
  let (sign, cs) : Int × List Char :=
    match cs with
    | '-' :: r => (-1, r)
    | '+' :: r => (1, r)
    | r => (1, r)
  let (dv, base, cs) : (Char → Option Nat) × Nat × List Char :=
    match cs with
    | '0' :: 'x' :: r => (hexDigitVal, 16, r)
    | '0' :: 'X' :: r => (hexDigitVal, 16, r)
    | r => (decDigitVal, 10, r)
  (parseDigits dv base cs).map (fun v => sign * (v : Int))

/-- One decoded sample as built at src/index.tsx:159-166: a wall-clock
timestamp string and the five finger channels. -/
structure FingerData where
  timestamp : String
  pulgar : Int
  indice : Int
  medio : Int
  anular : Int
  menique : Int
  deriving DecidableEq, Repr

/-- The decoder of src/index.tsx:153-166: split the frame on `','`,
`parseInt` each trimmed field, and accept only when there are at least
5 fields and no field parsed to `NaN`; on success the first five
values form the channels.  The source's `values[i] || 0` is the
identity here because `NaN` is excluded by the guard and `0 || 0 = 0`. -/
def decodeChannels (frame : String) : Option (Int × Int × Int × Int × Int) :=
  let vs := (splitComma frame.toList).map (fun f => jsParseInt (trimWs f))
  if 5 ≤ vs.length ∧ vs.all Option.isSome then
    some ((vs.getD 0 none).getD 0, (vs.getD 1 none).getD 0,
          (vs.getD 2 none).getD 0, (vs.getD 3 none).getD 0,
          (vs.getD 4 none).getD 0)
  else none

/-- The buffer step of src/index.tsx:137-153.  The chunk is appended to
the buffer; if the buffer contains a newline or splits on `','` into at
least 5 fields, one candidate frame is extracted: the second-to-last
newline segment when there is more than one segment (the last segment
becomes the new buffer), otherwise the entire buffer (which is reset
only when longer than 50 characters).  Returns the new buffer and the
candidate `dataString` handed to the decoder, `none` when the outer
condition fails and nothing is processed. -/
def pushChunk (buf chunk : String) : String × Option String :=
  let b := (buf ++ chunk).toList
  if b.contains '\n' ∨ 5 ≤ (splitComma b).length then
    let lines := splitLines b
    let dataString : List Char :=
      if 1 < lines.length then lines.getD (lines.length - 2) [] else b
    let newBuf : List Char :=
      if 1 < lines.length then lines.getD (lines.length - 1) []
      else if 50 < b.length then [] else b
    (⟨newBuf⟩, some ⟨dataString⟩)
  else (⟨b⟩, none)

/-- Fold `pushChunk` over one chunk, recording in the trace the
candidate frames that pass the decoder — the frames "emitted (decoded)"
by the reassembler. -/
def pushFrames (st : String × List String) (chunk : String) :
    String × List String :=
  let r := pushChunk st.1 chunk
  match r.2 with
  | some ds => if (decodeChannels ds).isSome then (r.1, st.2 ++ [ds])
               else (r.1, st.2)
  | none => (r.1, st.2)

/-- Feed a sequence of chunks to an initially empty reassembler and
collect the decoded frames in emission order. -/
def runChunks (chunks : List String) : String × List String :=
  chunks.foldl pushFrames ("", [])

/-- The history append of src/index.tsx:170-174 (capacity 60) and of
the older variant at lines 965-969 (capacity 50): push the new sample
at the end; if the length now exceeds the capacity, `slice` keeps only
the last `cap` elements. -/
def appendHist (cap : Nat) (h : List FingerData) (x : FingerData) :
    List FingerData :=
  let h := h ++ [x]
  if cap < h.length then h.drop (h.length - cap) else h

/-- The mutable state touched by `handleCharacteristicValueChanged`:
the reassembly buffer (`bufferRef`), the live sample (`currentData`),
the history, and the capture flag (`sessionActive`). -/
structure StreamSt where
  buffer : String
  currentData : FingerData
  history : List FingerData
  sessionActive : Bool
  deriving DecidableEq, Repr

/-- `handleCharacteristicValueChanged` (src/index.tsx:131-178) on one
incoming chunk, with the wall-clock time string passed as `ts`: run the
buffer step; when the candidate frame decodes, replace `currentData`
and — only when `sessionActive` — append to the history (capacity 60);
otherwise only the buffer changes. -/
def handleChunk (ts : String) (chunk : String) (s : StreamSt) : StreamSt :=
  let r := pushChunk s.buffer chunk
  match r.2.bind decodeChannels with
  | some (a, b, c, d, e) =>
    let newData : FingerData := ⟨ts, a, b, c, d, e⟩
    { buffer := r.1
      currentData := newData
      history := if s.sessionActive then appendHist 60 s.history newData
                 else s.history
      sessionActive := s.sessionActive }
  | none => { s with buffer := r.1 }

/-- The designated-channel draw of the simulation tick
(src/index.tsx:284): `Math.floor(Math.random() * 40) + (currentData.pulgar
> 150 ? 0 : 20)`, with the floored random draw modelled as a natural
number `r < 40` (every value in `[0,40)` is attainable). -/
def pulgarNext (r : Nat) (prev : Int) : Int :=
  (r : Int) + (if 150 < prev then 0 else 20)

/-- The component state of `App` touched by the session-level handlers
that the claims mention. -/
structure AppState where
  isConnected : Bool
  isSimulating : Bool
  sessionActive : Bool
  connectedDeviceName : String
  currentData : FingerData
  history : List FingerData
  aiReport : String
  isGeneratingReport : Bool
  hasApiKey : Bool
  envApiKey : Bool
  deriving Repr

/-- The header's disconnect button (src/index.tsx:559-563): call
`serverRef.current.disconnect()` (a transport side effect outside the
state) and set `isConnected` to `false`; nothing else changes. -/
def disconnectClick (s : AppState) : AppState :=
  { s with isConnected := false }

/-- `toggleSimulation` (src/index.tsx:259-271): stopping the simulation
clears the connection flags and the device name; starting it sets
them. -/
def toggleSimulation (s : AppState) : AppState :=
  if s.isSimulating then
    { s with isSimulating := false, isConnected := false,
             sessionActive := false, connectedDeviceName := "" }
  else
    { s with isSimulating := true, isConnected := true,
             sessionActive := true,
             connectedDeviceName := "Modo Simulación" }

/-- The sample used to initialise and reset `currentData`
(src/index.tsx:83 and 311). -/
def emptyFinger : FingerData := ⟨"", 0, 0, 0, 0, 0⟩

/-- `handleClear` (src/index.tsx:308-312): the explicit reset action
empties the history and the report and zeroes the live sample. -/
def handleClear (s : AppState) : AppState :=
  { s with history := [], aiReport := "", currentData := emptyFinger }

/-- JavaScript `Math.round(a / b)` for an integer sum `a` and a
positive count `b`: `Math.round x = ⌊x + 1/2⌋`, so the result is
`⌊(2a + b) / (2b)⌋`. -/
def jsRoundDiv (a : Int) (b : Nat) : Int :=
  Int.fdiv (2 * a + b) (2 * b)

/-- `Math.max(...l)` over a list known to be non-empty at the call
site; the `[]` case (JavaScript `-Infinity`) is unreachable there and
mapped to `0`. -/
def listMax : List Int → Int
  | [] => 0
  | x :: xs => xs.foldl max x

/-- The aggregated statistics built at src/index.tsx:330-336. -/
structure Stats where
  muestras : Nat
  promedio_indice : Int
  max_indice : Int
  promedio_medio : Int
  max_medio : Int
  deriving DecidableEq, Repr

/-- The `stats` object of `generateAIReport` (src/index.tsx:330-336):
sample count, rounded mean and max of the index and middle fingers. -/
def mkStats (history : List FingerData) : Stats :=
  { muestras := history.length
    promedio_indice :=
      jsRoundDiv ((history.map (·.indice)).foldl (· + ·) 0) history.length
    max_indice := listMax (history.map (·.indice))
    promedio_medio :=
      jsRoundDiv ((history.map (·.medio)).foldl (· + ·) 0) history.length
    max_medio := listMax (history.map (·.medio)) }

/-- The body of `generateAIReport` (src/index.tsx:315-336) up to the
request: bail out when no API key is available (neither the environment
key nor a linked account) or when the history is empty; otherwise the
request carrying `mkStats history` is sent to the Gemini collaborator. -/
def generateAIReport (s : AppState) : Option Stats :=
  if ¬s.envApiKey ∧ ¬s.hasApiKey then none
  else if s.history.length = 0 then none
  else some (mkStats s.history)

/-- The report-generation path as reachable from the UI: the generate
button (src/index.tsx:713-719) is disabled while a report is being
generated or while the history holds fewer than 5 samples, so a click
reaches `generateAIReport` only past that gate. -/
def clickGenerateReport (s : AppState) : Option Stats :=
  if s.isGeneratingReport ∨ s.history.length < 5 then none
  else generateAIReport s

/-- A concrete paused-but-connected stream state, used to instantiate
the chunk-handling theorems. -/
def pausedState : StreamSt :=
  { buffer := ""
    currentData := emptyFinger
    history := [emptyFinger]
    sessionActive := false }

/-- A concrete connected demo-mode state, used to instantiate the
session-level theorems. -/
def demoState : AppState :=
  { isConnected := true
    isSimulating := true
    sessionActive := true
    connectedDeviceName := "Modo Simulación"
    currentData := emptyFinger
    history := [emptyFinger]
    aiReport := ""
    isGeneratingReport := false
    hasApiKey := true
    envApiKey := true }

/-- A character list without a newline splits into a single segment. -/
theorem splitNL_eq_singleton (cs : List Char) (h : cs.contains '\n' = false) :
    splitNL cs = [cs] := by
  induction cs with
  | nil => rfl
  | cons c rest ih =>
    simp only [List.contains_cons, Bool.or_eq_false_iff, beq_eq_false_iff_ne] at h
    rw [splitNL, if_neg (by exact fun hc => h.1 hc.symm), ih h.2]

/-- `split(/\r?\n/)` of a newline-free buffer is the buffer itself. -/
theorem splitLines_eq_singleton (cs : List Char) (h : cs.contains '\n' = false) :
    splitLines cs = [cs] := by
  rw [splitLines, splitNL_eq_singleton cs h]
  rfl

/-- A character list without a comma splits on `','` into one field. -/
theorem splitComma_eq_singleton (cs : List Char) (h : cs.contains ',' = false) :
    splitComma cs = [cs] := by
  induction cs with
  | nil => rfl
  | cons c rest ih =>
    simp only [List.contains_cons, Bool.or_eq_false_iff, beq_eq_false_iff_ne] at h
    rw [splitComma, if_neg (by exact fun hc => h.1 hc.symm), ih h.2]

/-- On a history of length at most the capacity, one append keeps the
last `cap` elements of the extended list. -/
theorem appendHist_eq_drop (cap : Nat) (h : List FingerData) (x : FingerData) :
    appendHist cap h x = (h ++ [x]).drop ((h ++ [x]).length - cap) := by
  unfold appendHist
  by_cases hc : cap < (h ++ [x]).length
  · rw [if_pos hc]
  · rw [if_neg hc, Nat.sub_eq_zero_of_le (Nat.le_of_not_lt hc), List.drop_zero]

/-- One append never leaves the history longer than the capacity,
provided it was within the capacity before. -/
theorem appendHist_length_le (cap : Nat) (h : List FingerData)
    (x : FingerData) (hle : h.length ≤ cap) :
    (appendHist cap h x).length ≤ cap := by
  unfold appendHist
  by_cases hc : cap < (h ++ [x]).length
  · rw [if_pos hc]
    simp only [List.length_drop, List.length_append, List.length_singleton]
    omega
  · rw [if_neg hc]
    exact Nat.le_of_not_lt hc

/-- Folding appends over any list of samples keeps exactly the last
`cap` samples of everything appended (FIFO eviction). -/
theorem foldl_appendHist (cap : Nat) (xs : List FingerData) :
    ∀ acc : List FingerData, acc.length ≤ cap →
      List.foldl (appendHist cap) acc xs
        = (acc ++ xs).drop ((acc ++ xs).length - cap) := by
  induction xs with
  | nil =>
    intro acc hle
    simp [Nat.sub_eq_zero_of_le hle]
  | cons x xs ih =>
    intro acc hle
    rw [List.foldl_cons, ih _ (appendHist_length_le cap acc x hle),
        appendHist_eq_drop cap acc x]
    rw [← List.drop_append_of_le_length (by simp)]
    rw [List.drop_drop]
    have hl : acc ++ [x] ++ xs = acc ++ x :: xs := by simp
    rw [hl]
    congr 1
    simp only [List.length_append, List.length_drop, List.length_cons,
      List.length_nil]
    omega

/-- A list of `n` copies of `'x'` contains neither a newline nor a
comma. -/
theorem replicate_x_not_contains (n : Nat) (c : Char) (h : (c == 'x') = false) :
    (List.replicate n 'x').contains c = false := by
  induction n with
  | zero => rfl
  | succ n ih => simp only [List.replicate_succ, List.contains_cons, h, ih,
      Bool.or_false]

/-- Pushing 51 `'x'` bytes onto an all-`'x'` buffer only appends: the
outer condition of the buffer step fails, so no processing and no
safety reset happen. -/
theorem pushChunk_x51 (k : Nat) :
    pushChunk ⟨List.replicate k 'x'⟩ ⟨List.replicate 51 'x'⟩
      = (⟨List.replicate (k + 51) 'x'⟩, none) := by
  have hb : ((⟨List.replicate k 'x'⟩ : String) ++ ⟨List.replicate 51 'x'⟩).toList
      = List.replicate (k + 51) 'x' := by
    show List.replicate k 'x' ++ List.replicate 51 'x' = _
    rw [← List.replicate_add]
  unfold pushChunk
  rw [hb, if_neg]
  intro hcond
  rcases hcond with hnl | hc
  · rw [replicate_x_not_contains (k + 51) '\n' (by decide)] at hnl
    exact Bool.false_ne_true hnl
  · rw [splitComma_eq_singleton _
      (replicate_x_not_contains (k + 51) ',' (by decide))] at hc
    simp at hc

/-- Feeding any number of 51-byte all-`'x'` chunks just concatenates
them into the buffer; nothing is ever emitted or discarded. -/
theorem runChunks_x51 (n : Nat) :
    ∀ k : Nat, ∀ fs : List String,
      List.foldl pushFrames (⟨List.replicate k 'x'⟩, fs)
          (List.replicate n ⟨List.replicate 51 'x'⟩)
        = (⟨List.replicate (k + 51 * n) 'x'⟩, fs) := by
  induction n with
  | zero => intro k fs; simp
  | succ n ih =>
    intro k fs
    rw [List.replicate_succ, List.foldl_cons]
    have hstep : pushFrames (⟨List.replicate k 'x'⟩, fs) ⟨List.replicate 51 'x'⟩
        = (⟨List.replicate (k + 51) 'x'⟩, fs) := by
      unfold pushFrames
      rw [pushChunk_x51 k]
    rw [hstep, ih (k + 51) fs]
    have : k + 51 + 51 * n = k + 51 * (n + 1) := by ring
    rw [this]

/-- C1: the claim that every chunking of
`"10,20,30,40,50\n60,70,80,90,100\n"` makes the reassembler emit
exactly the frames `"10,20,30,40,50"` and `"60,70,80,90,100"` is false:
delivering the whole text as one chunk emits only `"60,70,80,90,100"`,
because a push decodes only the second-to-last newline segment. -/
theorem frame_reassembly_single_chunk_cex :
    (runChunks ["10,20,30,40,50\n60,70,80,90,100\n"]).2 = ["60,70,80,90,100"]
    ∧ (["60,70,80,90,100"] : List String)
        ≠ ["10,20,30,40,50", "60,70,80,90,100"] :=
  ⟨by decide, by decide⟩

/-- C1 (amended): delivering each newline-terminated line as its own
chunk emits exactly the two frames in order; in general each push
emits at most one frame, so chunkings that place two complete lines in
one chunk lose all but the second-to-last segment. -/
theorem frame_reassembly_line_chunks :
    (runChunks ["10,20,30,40,50\n", "60,70,80,90,100\n"]).2
      = ["10,20,30,40,50", "60,70,80,90,100"]
    ∧ ∀ (st : String × List String) (chunk : String),
        ((pushFrames st chunk).2).length ≤ st.2.length + 1 := by
  refine ⟨by decide, ?_⟩
  intro st chunk
  cases h : (pushChunk st.1 chunk).2 with
  | none => simp [pushFrames, h]
  | some ds =>
    by_cases hd : (decodeChannels ds).isSome = true
    · simp [pushFrames, h, hd]
    · simp [pushFrames, h, hd]

/-- C2: a single push of 51 bytes with no comma and no newline leaves
the 51-character buffer in place — the safety reset never fires because
it sits inside the branch requiring a newline or 5 comma fields — and
repeated pushes grow the buffer without bound (51 characters per push),
contradicting the claimed reset-to-empty and boundedness. -/
theorem overflow_reset_unreachable :
    (runChunks [⟨List.replicate 51 'x'⟩]).1.length = 51
    ∧ (runChunks [⟨List.replicate 51 'x'⟩]).2 = []
    ∧ ∀ n : Nat,
        (runChunks (List.replicate n ⟨List.replicate 51 'x'⟩)).1.length
          = 51 * n := by
  refine ⟨by decide, by decide, ?_⟩
  intro n
  unfold runChunks
  show (List.foldl pushFrames (⟨List.replicate 0 'x'⟩, []) _).1.length = 51 * n
  rw [runChunks_x51 n 0 []]
  show (List.replicate (0 + 51 * n) 'x').length = 51 * n
  rw [List.length_replicate, Nat.zero_add]

/-- C4: the history buffer is FIFO-bounded at its capacity: appending
60 samples one at a time into the capacity-50 buffer of the older
variant keeps exactly the last 50 in original order, and the first
snapshot element is the 11th appended sample. -/
theorem history_fifo_capacity50 (xs : List FingerData) (h : xs.length = 60) :
    List.foldl (appendHist 50) [] xs = xs.drop 10
    ∧ (List.foldl (appendHist 50) [] xs).head? = xs[10]? := by
  have h1 : List.foldl (appendHist 50) [] xs = xs.drop 10 := by
    rw [foldl_appendHist 50 xs [] (by simp)]
    simp [h]
  exact ⟨h1, by rw [h1, List.head?_drop]⟩

/-- Witness for C4 at a concrete run of 60 samples. -/
theorem history_fifo_capacity50_witness :
    ((List.range 60).map
        (fun n => (⟨"", (n : Int), 0, 0, 0, 0⟩ : FingerData))).length = 60
    ∧ (List.foldl (appendHist 50) []
          ((List.range 60).map
            (fun n => (⟨"", (n : Int), 0, 0, 0, 0⟩ : FingerData)))
        = ((List.range 60).map
            (fun n => (⟨"", (n : Int), 0, 0, 0, 0⟩ : FingerData))).drop 10
      ∧ (List.foldl (appendHist 50) []
            ((List.range 60).map
              (fun n => (⟨"", (n : Int), 0, 0, 0, 0⟩ : FingerData)))).head?
          = ((List.range 60).map
              (fun n => (⟨"", (n : Int), 0, 0, 0, 0⟩ : FingerData)))[10]?) :=
  ⟨by decide, history_fifo_capacity50 _ (by decide)⟩

/-- C7: the claim that the designated channel is drawn from `[0,20)`
when the previous value exceeds 150 is false: the draw `r = 20` is a
valid value of `Math.floor(Math.random() * 40)`, and with previous
value 151 the code produces `20 + 0 = 20`, outside `[0,20)`. -/
theorem pulgar_ceiling_reset_cex :
    20 < 40 ∧ (150 : Int) < 151 ∧ pulgarNext 20 151 = 20
    ∧ ¬ pulgarNext 20 151 < 20 :=
  ⟨by decide, by decide, by decide, by decide⟩

/-- C7 (amended): per tick the designated channel is
`floor(random()*40)` plus an offset: when the previous value exceeds
150 the result lies in `[0,40)` (not `[0,20)` as claimed), otherwise
in `[20,60)`. -/
theorem pulgar_draw_ranges (r : Nat) (prev : Int) (hr : r < 40) :
    (150 < prev → 0 ≤ pulgarNext r prev ∧ pulgarNext r prev < 40)
    ∧ (prev ≤ 150 → 20 ≤ pulgarNext r prev ∧ pulgarNext r prev < 60) := by
  unfold pulgarNext
  constructor
  · intro hp
    rw [if_pos hp]
    omega
  · intro hp
    rw [if_neg (by omega)]
    omega

/-- Witness for C7 at the draw `r = 0` with previous value `160`. -/
theorem pulgar_draw_ranges_witness :
    0 < 40
    ∧ ((150 < (160 : Int) → 0 ≤ pulgarNext 0 160 ∧ pulgarNext 0 160 < 40)
       ∧ ((160 : Int) ≤ 150 → 20 ≤ pulgarNext 0 160 ∧ pulgarNext 0 160 < 60)) :=
  ⟨by decide, pulgar_draw_ranges 0 160 (by decide)⟩

/-- C8: leaving a connected session — by the header's disconnect button
or by stopping the simulation — never touches the history; only the
explicit `handleClear` empties it. -/
theorem disconnect_preserves_history (s : AppState) (h : s.isConnected = true) :
    (disconnectClick s).history = s.history
    ∧ (toggleSimulation s).history = s.history
    ∧ (handleClear s).history = [] := by
  refine ⟨rfl, ?_, rfl⟩
  unfold toggleSimulation
  by_cases hs : s.isSimulating = true
  · rw [if_pos hs]
  · rw [if_neg hs]

/-- Witness for C8 at a concrete connected simulating state. -/
theorem disconnect_preserves_history_witness :
    demoState.isConnected = true
    ∧ ((disconnectClick demoState).history = demoState.history
       ∧ (toggleSimulation demoState).history = demoState.history
       ∧ (handleClear demoState).history = []) :=
  ⟨rfl, disconnect_preserves_history demoState rfl⟩

/-- C9: the report-generation path reachable from the UI sends no
request to the Gemini collaborator whenever the history holds fewer
than 5 samples, because the generate button is disabled below that
threshold. -/
theorem report_gate_min_samples (s : AppState) (h : s.history.length < 5) :
    clickGenerateReport s = none := by
  unfold clickGenerateReport
  rw [if_pos (Or.inr h)]

/-- Witness for C9 at a state holding a single sample. -/
theorem report_gate_min_samples_witness :
    demoState.history.length < 5 ∧ clickGenerateReport demoState = none :=
  ⟨by decide, report_gate_min_samples demoState (by decide)⟩

/-- C3: the claim that the buffer is cleared after a no-newline
5-field buffer is decoded as one frame is false: pushing
`"10,20,30,40,50"` into an empty reassembler hands the whole buffer to
the decoder but leaves the buffer holding `"10,20,30,40,50"`, not
empty (the reset applies only past 50 characters). -/
theorem csv_frame_buffer_not_cleared_cex :
    pushChunk "" "10,20,30,40,50" = ("10,20,30,40,50", some "10,20,30,40,50")
    ∧ ("10,20,30,40,50" : String) ≠ "" :=
  ⟨by decide, by decide⟩

/-- C3 (amended): whenever the buffer plus the pushed chunk contains no
newline and splits on `','` into at least 5 fields, the entire buffer
is handed to the decoder as one candidate frame; afterwards the buffer
is reset to empty only when it is longer than 50 characters, and is
left unchanged otherwise. -/
theorem csv_frame_whole_buffer (buf chunk : String)
    (h1 : ((buf ++ chunk).toList.contains '\n') = false)
    (h2 : 5 ≤ (splitComma (buf ++ chunk).toList).length) :
    pushChunk buf chunk
      = (if 50 < (buf ++ chunk).length then "" else buf ++ chunk,
         some (buf ++ chunk)) := by
  simp only [pushChunk]
  rw [if_pos (Or.inr h2), splitLines_eq_singleton _ h1]
  simp only [List.length_cons, List.length_nil, Nat.lt_irrefl, if_false]
  have hlen : (buf ++ chunk).toList.length = (buf ++ chunk).length := rfl
  rw [hlen]
  split_ifs <;> rfl

/-- Witness for C3 at an empty buffer and the chunk
`"10,20,30,40,50"`. -/
theorem csv_frame_whole_buffer_witness :
    ((("" : String) ++ "10,20,30,40,50").toList.contains '\n') = false
    ∧ 5 ≤ (splitComma (("" : String) ++ "10,20,30,40,50").toList).length
    ∧ pushChunk "" "10,20,30,40,50"
        = (if 50 < (("" : String) ++ "10,20,30,40,50").length then ""
           else ("" : String) ++ "10,20,30,40,50",
           some (("" : String) ++ "10,20,30,40,50")) :=
  ⟨by decide, by decide, csv_frame_whole_buffer "" "10,20,30,40,50"
    (by decide) (by decide)⟩

/-- C5: the decoder rejects every frame with fewer than 5
comma-separated fields, and every frame whose first 5 fields include
one that fails `parseInt`; no sample is produced for such frames. -/
theorem decoder_rejects_bad_frames (frame : String)
    (h : (splitComma frame.toList).length < 5
         ∨ (((splitComma frame.toList).take 5).map
              (fun f => jsParseInt (trimWs f))).any Option.isNone) :
    decodeChannels frame = none := by
  simp only [decodeChannels]
  rw [if_neg]
  rintro ⟨h5, hall⟩
  rw [List.length_map] at h5
  rcases h with h | h
  · omega
  · rw [List.any_eq_true] at h
    obtain ⟨v, hv, hnone⟩ := h
    rw [List.all_eq_true] at hall
    have hv' : v ∈ (splitComma frame.toList).map
        (fun f => jsParseInt (trimWs f)) := by
      rw [List.mem_map] at hv ⊢
      obtain ⟨f, hf, rfl⟩ := hv
      exact ⟨f, List.mem_of_mem_take hf, rfl⟩
    have := hall v hv'
    rw [Option.isNone_iff_eq_none] at hnone
    rw [hnone] at this
    exact Bool.false_ne_true this

/-- Witness for C5 at the two frames named by the specification. -/
theorem decoder_rejects_bad_frames_witness :
    ((splitComma ("a,20,30,40,50" : String).toList).length < 5
      ∨ (((splitComma ("a,20,30,40,50" : String).toList).take 5).map
           (fun f => jsParseInt (trimWs f))).any Option.isNone)
    ∧ decodeChannels "a,20,30,40,50" = none
    ∧ ((splitComma ("10,20,30,40" : String).toList).length < 5
        ∨ (((splitComma ("10,20,30,40" : String).toList).take 5).map
             (fun f => jsParseInt (trimWs f))).any Option.isNone)
    ∧ decodeChannels "10,20,30,40" = none :=
  ⟨by decide, decoder_rejects_bad_frames "a,20,30,40,50" (by decide),
   by decide, decoder_rejects_bad_frames "10,20,30,40" (by decide)⟩

/-- C6: while the session is paused, processing any incoming chunk —
whether or not it completes a decodable frame — leaves the history
unchanged; samples are appended only when `sessionActive` holds. -/
theorem paused_session_history_unchanged (ts chunk : String) (s : StreamSt)
    (h : s.sessionActive = false) :
    (handleChunk ts chunk s).history = s.history := by
  rcases hm : (pushChunk s.buffer chunk).2.bind decodeChannels with _ | v
  · simp only [handleChunk, hm]
  · obtain ⟨a, b, c, d, e⟩ := v
    simp only [handleChunk, hm, h, Bool.false_eq_true, if_false]

/-- Witness for C6: a paused state receiving a complete frame keeps
its history. -/
theorem paused_session_history_unchanged_witness :
    pausedState.sessionActive = false
    ∧ (handleChunk "12:0:0" "10,20,30,40,50\n" pausedState).history
        = pausedState.history :=
  ⟨rfl, paused_session_history_unchanged "12:0:0" "10,20,30,40,50\n"
    pausedState rfl⟩

/-- C10: while the session is paused, a chunk whose candidate frame
decodes still mutates the state outside the history: `currentData`
becomes the decoded sample and the buffer advances per the reassembly
logic, while the history stays untouched. -/
theorem paused_session_live_update (ts chunk : String) (s : StreamSt)
    (a b c d e : Int) (h : s.sessionActive = false)
    (hd : (pushChunk s.buffer chunk).2.bind decodeChannels
            = some (a, b, c, d, e)) :
    handleChunk ts chunk s
      = { buffer := (pushChunk s.buffer chunk).1
          currentData := ⟨ts, a, b, c, d, e⟩
          history := s.history
          sessionActive := false } := by
  simp only [handleChunk, hd, h, Bool.false_eq_true, if_false]

/-- Witness for C10: in the paused state an arriving complete frame
replaces the live sample and empties the buffer, with the history
intact. -/
theorem paused_session_live_update_witness :
    pausedState.sessionActive = false
    ∧ (pushChunk pausedState.buffer "10,20,30,40,50\n").2.bind decodeChannels
        = some (10, 20, 30, 40, 50)
    ∧ handleChunk "12:0:0" "10,20,30,40,50\n" pausedState
        = { buffer := (pushChunk pausedState.buffer "10,20,30,40,50\n").1
            currentData := ⟨"12:0:0", 10, 20, 30, 40, 50⟩
            history := pausedState.history
            sessionActive := false } :=
  ⟨rfl, by decide,
   paused_session_live_update "12:0:0" "10,20,30,40,50\n" pausedState
     10 20 30 40 50 rfl (by decide)⟩

end PhysioSense
